import Mathlib

/-!
Verification development for the go-ratox FIFO gateway and friend-state
engine.  Go data structures are shallowly embedded: Go maps become
association lists with replace-on-insert semantics, Go strings that are
inspected byte-wise become lists of byte values, timestamps become
integers (nanoseconds), and syscall/engine results become oracle
parameters.  Every definition mirrors the corresponding Go function from
the repository; theorems settle the frozen claims about them.
-/

set_option maxRecDepth 4000

namespace Ratox

/-! ## Association-list helpers (Go map semantics) -/

/-- Lookup in an association list, mirroring Go map indexing. -/
def alookup {κ α : Type} [DecidableEq κ] : List (κ × α) → κ → Option α
  | [], _ => none
  | (k, v) :: rest, key => if k = key then some v else alookup rest key

/-- Insert mirroring Go `m[k] = v`: at most one binding per key survives. -/
def ainsert {κ α : Type} [DecidableEq κ] (k : κ) (v : α) (l : List (κ × α)) :
    List (κ × α) :=
  (k, v) :: l.filter (fun p => !decide (p.1 = k))

/-- Deletion mirroring Go `delete(m, k)`. -/
def aerase {κ α : Type} [DecidableEq κ] (l : List (κ × α)) (k : κ) :
    List (κ × α) :=
  l.filter (fun p => !decide (p.1 = k))

/-- Number of bindings an association list holds for a key. -/
def acount {κ α : Type} [DecidableEq κ] (l : List (κ × α)) (k : κ) : Nat :=
  (l.filter (fun p => decide (p.1 = k))).length

theorem alookup_ainsert_self {κ α : Type} [DecidableEq κ]
    (k : κ) (v : α) (l : List (κ × α)) : alookup (ainsert k v l) k = some v := by
  simp [ainsert, alookup]

theorem alookup_filterKey {κ α : Type} [DecidableEq κ]
    (k k' : κ) (l : List (κ × α)) (h : k ≠ k') :
    alookup (l.filter (fun p => !decide (p.1 = k))) k' = alookup l k' := by
  induction l with
  | nil => rfl
  | cons p rest ih =>
      rcases p with ⟨pk, pv⟩
      by_cases hp : pk = k
      · simp [List.filter_cons, hp, alookup, h, ih]
      · by_cases hk' : pk = k'
        · have h3 : ¬ (k' = k) := hk' ▸ hp
          simp [List.filter_cons, hp, alookup, hk', h3]
        · simp [List.filter_cons, hp, alookup, hk', ih]

theorem alookup_aerase {κ α : Type} [DecidableEq κ]
    (k k' : κ) (l : List (κ × α)) (h : k ≠ k') :
    alookup (aerase l k) k' = alookup l k' :=
  alookup_filterKey k k' l h

theorem alookup_ainsert_ne {κ α : Type} [DecidableEq κ]
    (k k' : κ) (v : α) (l : List (κ × α)) (h : k ≠ k') :
    alookup (ainsert k v l) k' = alookup l k' := by
  rw [ainsert, alookup, if_neg h]
  exact alookup_filterKey k k' l h

theorem acount_ainsert {κ α : Type} [DecidableEq κ]
    (k : κ) (v : α) (l : List (κ × α)) : acount (ainsert k v l) k = 1 := by
  rw [acount, ainsert]
  have key : ∀ m : List (κ × α),
      (m.filter (fun p => !decide (p.1 = k))).filter
        (fun p => decide (p.1 = k)) = [] := by
    intro m
    induction m with
    | nil => rfl
    | cons p rest ih =>
        by_cases hp : p.1 = k
        · simp [List.filter_cons, hp, ih]
        · simp [List.filter_cons, hp, ih]
  simp [List.filter_cons, key]

/-! ## Friend registry (src/client/client.go) -/

/-- `Friend` from src/client/client.go: registry record keyed by numeric
handle with a hex-string public key. -/
structure FriendRec where
  number : Nat
  publicKey : String
  name : String
  statusMsg : String
  status : Nat
  connStatus : Nat
  lastSeen : Int
  deriving Repr, DecidableEq

/-- The two friend indices owned by `Client` in src/client/client.go:
`friends` maps the numeric handle to the record, `friendsByID` maps the
public key back to the handle. -/
structure Registry where
  friends : List (Nat × FriendRec)
  friendsByID : List (String × Nat)
  deriving Repr, DecidableEq

/-- The empty registry (as built by `New`). -/
def Registry.empty : Registry := ⟨[], []⟩

/-- `Client.AddFriend` (src/client/client.go:367-383): under the lock,
store the record under its handle and the handle under its public key. -/
def AddFriend (f : FriendRec) (r : Registry) : Registry :=
  { friends := ainsert f.number f r.friends
    friendsByID := ainsert f.publicKey f.number r.friendsByID }

/-- The forward and reverse indices agree: every stored record's key maps
back to its handle, and every reverse entry points at a record carrying
that key (no dangling or orphaned entries in either direction). -/
def indicesAgree (r : Registry) : Prop :=
  (∀ p ∈ r.friends, alookup r.friendsByID p.2.publicKey = some p.1) ∧
  (∀ q ∈ r.friendsByID,
    (alookup r.friends q.2).map FriendRec.publicKey = some q.1)

instance (r : Registry) : Decidable (indicesAgree r) := by
  unfold indicesAgree
  exact instDecidableAnd

/-- The forward index holds at most one record per handle. -/
def handlesUnique (r : Registry) : Prop :=
  (r.friends.map Prod.fst).Nodup

instance (r : Registry) : Decidable (handlesUnique r) := by
  unfold handlesUnique
  infer_instance

/-- A call is compatible with the registry when it neither rebinds an
existing handle to a new key nor an existing key to a new handle. -/
def compatibleUpsert (f : FriendRec) (r : Registry) : Prop :=
  (alookup r.friends f.number = none ∨
    (∃ g, alookup r.friends f.number = some g ∧ g.publicKey = f.publicKey)) ∧
  (alookup r.friendsByID f.publicKey = none ∨
    alookup r.friendsByID f.publicKey = some f.number)

theorem ainsert_idem {κ α : Type} [DecidableEq κ] (k : κ) (v : α)
    (l : List (κ × α)) : ainsert k v (ainsert k v l) = ainsert k v l := by
  simp [ainsert, List.filter_cons, List.filter_filter]

theorem nodup_keys_ainsert {κ α : Type} [DecidableEq κ] (k : κ) (v : α)
    (l : List (κ × α)) (h : (l.map Prod.fst).Nodup) :
    ((ainsert k v l).map Prod.fst).Nodup := by
  simp only [ainsert, List.map_cons, List.nodup_cons]
  refine ⟨?_, ?_⟩
  · intro hmem
    rcases List.mem_map.1 hmem with ⟨p, hp, hpk⟩
    rcases List.mem_filter.1 hp with ⟨_, hpred⟩
    simp only [Bool.not_eq_true', decide_eq_false_iff_not] at hpred
    exact hpred hpk
  · exact List.Sublist.nodup (List.Sublist.map Prod.fst (List.filter_sublist l)) h

/-- A sample record used to instantiate registry theorems. -/
def sampleFriendA : FriendRec :=
  { number := 1, publicKey := "A", name := "Alice", statusMsg := "",
    status := 0, connStatus := 0, lastSeen := 0 }

/-- The same handle as `sampleFriendA` but bound to a different key. -/
def sampleFriendB : FriendRec :=
  { number := 1, publicKey := "B", name := "Alice", statusMsg := "",
    status := 0, connStatus := 0, lastSeen := 0 }

/-- C6 counterexample: upserting handle 1 first with key "A" and then with
key "B" leaves the stale reverse entry "A" → 1 behind, so the reverse
key index no longer agrees with the forward handle index after the second
call; `AddFriend` never deletes superseded `friendsByID` entries. -/
theorem c6_counterexample :
    ¬ indicesAgree (AddFriend sampleFriendB
      (AddFriend sampleFriendA Registry.empty)) := by
  decide

/-- C6 (amended): `AddFriend` is idempotent under repeated calls with the
same record, the forward index never holds two entries for one handle,
and the reverse key index agrees with the forward index after each call
provided the call does not rebind an existing handle to a different key
or an existing key to a different handle. -/
theorem c6_upsert_indices (f : FriendRec) (r : Registry)
    (hU : handlesUnique r) (hA : indicesAgree r) (hC : compatibleUpsert f r) :
    AddFriend f (AddFriend f r) = AddFriend f r ∧
    acount (AddFriend f r).friends f.number = 1 ∧
    handlesUnique (AddFriend f r) ∧
    indicesAgree (AddFriend f r) := by
  refine ⟨?_, ?_, ?_, ?_, ?_⟩
  · simp [AddFriend, ainsert_idem]
  · simpa [AddFriend] using acount_ainsert f.number f r.friends
  · simpa [AddFriend, handlesUnique] using
      nodup_keys_ainsert f.number f r.friends hU
  · -- forward direction of the agreement
    intro p hp
    simp only [AddFriend] at hp ⊢
    simp only [ainsert] at hp
    rcases List.mem_cons.1 hp with heq | hmem
    · subst heq
      exact alookup_ainsert_self f.publicKey f.number r.friendsByID
    · rcases List.mem_filter.1 hmem with ⟨hpm, hpred⟩
      simp only [Bool.not_eq_true', decide_eq_false_iff_not] at hpred
      by_cases hkey : p.2.publicKey = f.publicKey
      · exfalso
        have h1 := hA.1 p hpm
        rw [hkey] at h1
        rcases hC.2 with h2 | h2
        · rw [h1] at h2; exact Option.noConfusion h2
        · rw [h1] at h2
          exact hpred (Option.some.inj h2)
      · rw [alookup_ainsert_ne f.publicKey p.2.publicKey f.number
          r.friendsByID (Ne.symm hkey)]
        exact hA.1 p hpm
  · -- reverse direction of the agreement
    intro q hq
    simp only [AddFriend] at hq ⊢
    simp only [ainsert] at hq
    rcases List.mem_cons.1 hq with heq | hmem
    · subst heq
      show (alookup (ainsert f.number f r.friends) f.number).map
        FriendRec.publicKey = some f.publicKey
      rw [alookup_ainsert_self f.number f r.friends]
      rfl
    · rcases List.mem_filter.1 hmem with ⟨hqm, hqpred⟩
      simp only [Bool.not_eq_true', decide_eq_false_iff_not] at hqpred
      by_cases hnum : q.2 = f.number
      · exfalso
        have h1 := hA.2 q hqm
        rw [hnum] at h1
        rcases hC.1 with h2 | h2
        · rw [h2] at h1; exact Option.noConfusion h1
        · rcases h2 with ⟨g, hg, hgk⟩
          rw [hg] at h1
          simp only [Option.map_some'] at h1
          exact hqpred ((Option.some.inj h1) ▸ hgk ▸ rfl)
      · rw [alookup_ainsert_ne f.number q.2 f r.friends (Ne.symm hnum)]
        exact hA.2 q hqm

/-- C6 witness: the amended theorem applied to upserting a concrete record
into the empty registry. -/
theorem c6_upsert_indices_witness :
    handlesUnique Registry.empty ∧ indicesAgree Registry.empty ∧
    compatibleUpsert sampleFriendA Registry.empty ∧
    (AddFriend sampleFriendA (AddFriend sampleFriendA Registry.empty) =
        AddFriend sampleFriendA Registry.empty ∧
      acount (AddFriend sampleFriendA Registry.empty).friends
        sampleFriendA.number = 1 ∧
      handlesUnique (AddFriend sampleFriendA Registry.empty) ∧
      indicesAgree (AddFriend sampleFriendA Registry.empty)) :=
  ⟨by decide, by decide, ⟨Or.inl rfl, Or.inl rfl⟩,
    c6_upsert_indices sampleFriendA Registry.empty (by decide) (by decide)
      ⟨Or.inl rfl, Or.inl rfl⟩⟩

/-! ## Strings, bytes and paths -/

/-- Go `len` on a string counts UTF-8 bytes, not code points. -/
def goLen (s : String) : Nat := s.utf8ByteSize

theorem goLen_eq_zero (s : String) : goLen s = 0 ↔ s = "" := by
  cases s with
  | mk data =>
      simp only [goLen, String.utf8ByteSize_mk, String.utf8Len_eq_zero]
      exact ⟨fun h => by rw [h], fun h => congrArg String.data h⟩

/-- Lowercase hex digit, as produced by Go `encoding/hex`. -/
def hexDigitChar (n : Nat) : Char :=
  if n < 10 then Char.ofNat (48 + n) else Char.ofNat (87 + n)

/-- Go `hex.EncodeToString`: two lowercase digits per byte. -/
def encodeHex (bytes : List Nat) : String :=
  String.mk (bytes.foldr
    (fun b acc => hexDigitChar (b / 16) :: hexDigitChar (b % 16) :: acc) [])

/-- `Config.FriendDir` (config.go): `filepath.Join(ConfigDir, friendID)`. -/
def FriendDir (configDir friendID : String) : String :=
  configDir ++ "/" ++ friendID

/-- `Config.FriendFIFOPath` (config.go). -/
def FriendFIFOPath (configDir friendID fifoName : String) : String :=
  FriendDir configDir friendID ++ "/" ++ fifoName

/-- `Config.GlobalFIFOPath` (config.go). -/
def GlobalFIFOPath (configDir fifoName : String) : String :=
  configDir ++ "/" ++ fifoName

/-! ## Friend state and message handlers (src/unnamed/part_001,
src/client/handlers.go) -/

/-- `toxcore.MessageType`. -/
inductive MessageType where
  | normal
  | action
  deriving Repr, DecidableEq

/-- `Friend` from src/unnamed/part_001: keyed by engine handle, carrying
the raw 32-byte public key. -/
structure Friend where
  id : Nat
  publicKey : List Nat
  name : String
  status : Int
  online : Bool
  lastSeen : Int
  deriving Repr, DecidableEq

/-- `Client.SendMessage` (src/unnamed/part_001:477-487).  The boolean
records whether the engine call `tox.SendFriendMessage` was reached; the
`Except` is the value returned to the caller. -/
def SendMessage (friendID : Nat) (message : String) (messageType : MessageType)
    (engineResult : Except String Unit) : Bool × Except String Unit :=
  if goLen message = 0 then (false, Except.error "message cannot be empty")
  else if goLen message > 1372 then
    (false, Except.error "message too long (max 1372 bytes)")
  else (true, engineResult)

/-- `Client.handleFriendMessage` (src/client/handlers.go:29-62): resolve
the handle; unknown handles are logged and dropped (`none`); otherwise
the record's last-seen time is refreshed and the formatted line together
with the destination pipe path is produced. -/
def handleFriendMessage (configDir : String) (friends : List (Nat × Friend))
    (friendID : Nat) (message : String) (messageType : MessageType)
    (timestamp : String) (now : Int) :
    Option (List (Nat × Friend) × String × String) :=
  match alookup friends friendID with
  | none => none
  | some friend =>
      let friends' := ainsert friendID { friend with lastSeen := now } friends
      let formatted :=
        match messageType with
        | MessageType.action =>
            "[" ++ timestamp ++ "] * " ++ friend.name ++ " " ++ message
        | MessageType.normal =>
            "[" ++ timestamp ++ "] <" ++ friend.name ++ "> " ++ message
      some (friends',
        FriendFIFOPath configDir (encodeHex friend.publicKey) "text_out",
        formatted)

/-- The presence string selected by `handleFriendStatusChange`
(src/client/handlers.go:106-114). -/
def statusString (status : Int) : String :=
  if status = 0 then "online"
  else if status = 1 then "away"
  else if status = 2 then "busy"
  else "offline"

/-- `Client.handleFriendStatusChange` (src/client/handlers.go:95-124):
for a known peer, store the new status in the registry and emit the
mapped presence string on the peer's status pipe; unknown peers produce
no write. -/
def handleFriendStatusChange (configDir : String)
    (friends : List (Nat × Friend)) (friendID : Nat) (status : Int) :
    List (Nat × Friend) × Option (String × String) :=
  match alookup friends friendID with
  | none => (friends, none)
  | some friend =>
      (ainsert friendID { friend with status := status } friends,
        some (FriendFIFOPath configDir (encodeHex friend.publicKey) "status",
          statusString status))

/-- C2: a candidate (nonempty) outbound text message reaches the engine
call in `SendMessage` exactly when its UTF-8 byte length is at most 1372;
an oversized message is rejected with an error before any engine call. -/
theorem c2_sendMessage_byte_limit (friendID : Nat) (message : String)
    (messageType : MessageType) (engineResult : Except String Unit)
    (h : message ≠ "") :
    ((SendMessage friendID message messageType engineResult).1 = true ↔
      message.utf8ByteSize ≤ 1372) ∧
    (1372 < message.utf8ByteSize →
      SendMessage friendID message messageType engineResult =
        (false, Except.error "message too long (max 1372 bytes)")) := by
  have h0 : ¬ goLen message = 0 := fun hz => h ((goLen_eq_zero message).1 hz)
  have hg : goLen message = message.utf8ByteSize := rfl
  constructor
  · by_cases hlen : goLen message > 1372
    · simp [SendMessage, h0, hlen]
      omega
    · simp [SendMessage, h0, hlen]
      omega
  · intro hgt
    have hlen : goLen message > 1372 := hgt
    simp [SendMessage, h0, hlen]

/-- A message of 686 two-byte code points: 1372 UTF-8 bytes. -/
def msg686 : String := String.mk (List.replicate 686 'é')

/-- A message of 687 two-byte code points: 1374 UTF-8 bytes. -/
def msg687 : String := String.mk (List.replicate 687 'é')

/-- C2 witness: 686 two-byte characters (1372 bytes) pass the limit and
687 (1374 bytes) are rejected before the engine call, so the limit is
measured in encoded bytes, not code points. -/
theorem c2_sendMessage_byte_limit_witness :
    msg686 ≠ "" ∧ msg687 ≠ "" ∧
    msg686.length = 686 ∧ msg686.utf8ByteSize = 1372 ∧
    msg687.length = 687 ∧ msg687.utf8ByteSize = 1374 ∧
    (SendMessage 0 msg686 MessageType.normal (Except.ok ())).1 = true ∧
    (1372 < msg687.utf8ByteSize →
      SendMessage 0 msg687 MessageType.normal (Except.ok ()) =
        (false, Except.error "message too long (max 1372 bytes)")) :=
  ⟨by decide, by decide, by decide, by decide, by decide, by decide,
    ((c2_sendMessage_byte_limit 0 msg686 MessageType.normal (Except.ok ())
      (by decide)).1).mpr (by decide),
    (c2_sendMessage_byte_limit 0 msg687 MessageType.normal (Except.ok ())
      (by decide)).2⟩

/-- C3: for a presence-change event about a known peer, the registry
record's status is replaced and the mapped presence string — always one
of online/away/busy/offline — is emitted on that peer's status pipe. -/
theorem c3_presence_update (configDir : String)
    (friends : List (Nat × Friend)) (friendID : Nat) (status : Int)
    (friend : Friend) (h : alookup friends friendID = some friend) :
    (handleFriendStatusChange configDir friends friendID status).1 =
      ainsert friendID { friend with status := status } friends ∧
    alookup (handleFriendStatusChange configDir friends friendID status).1
      friendID = some { friend with status := status } ∧
    (handleFriendStatusChange configDir friends friendID status).2 =
      some (FriendFIFOPath configDir (encodeHex friend.publicKey) "status",
        statusString status) ∧
    statusString status ∈ ["online", "away", "busy", "offline"] := by
  refine ⟨?_, ?_, ?_, ?_⟩
  · simp [handleFriendStatusChange, h]
  · simp only [handleFriendStatusChange, h]
    exact alookup_ainsert_self friendID _ friends
  · simp [handleFriendStatusChange, h]
  · unfold statusString
    split_ifs <;> decide

/-- The known peer used by the handler witnesses. -/
def bobFriend : Friend :=
  { id := 5, publicKey := List.replicate 32 0, name := "Bob",
    status := 0, online := false, lastSeen := 0 }

/-- A one-element friend map holding `bobFriend` under handle 5. -/
def bobFriends : List (Nat × Friend) := [(5, bobFriend)]

/-- C3 witness: a presence change to away (status 1) for the known peer
updates the record and writes "away" to the status pipe. -/
theorem c3_presence_update_witness :
    alookup bobFriends 5 = some bobFriend ∧
    statusString 1 = "away" ∧
    ((handleFriendStatusChange "/cfg" bobFriends 5 1).1 =
        ainsert 5 { bobFriend with status := 1 } bobFriends ∧
      alookup (handleFriendStatusChange "/cfg" bobFriends 5 1).1 5 =
        some { bobFriend with status := 1 } ∧
      (handleFriendStatusChange "/cfg" bobFriends 5 1).2 =
        some (FriendFIFOPath "/cfg" (encodeHex bobFriend.publicKey) "status",
          statusString 1) ∧
      statusString 1 ∈ ["online", "away", "busy", "offline"]) :=
  ⟨rfl, by decide, c3_presence_update "/cfg" bobFriends 5 1 bobFriend rfl⟩

/-- C7: an incoming text message from an unknown handle is dropped with
no pipe write; from a known peer it is written to that peer's text_out
pipe as `[HH:MM:SS] <name> text` for a normal message and
`[HH:MM:SS] * name text` for an action-kind message. -/
theorem c7_friendMessage_format (configDir : String)
    (friends : List (Nat × Friend)) (friendID : Nat)
    (message timestamp : String) (now : Int) :
    (alookup friends friendID = none →
      handleFriendMessage configDir friends friendID message
        MessageType.normal timestamp now = none ∧
      handleFriendMessage configDir friends friendID message
        MessageType.action timestamp now = none) ∧
    (∀ friend, alookup friends friendID = some friend →
      handleFriendMessage configDir friends friendID message
          MessageType.normal timestamp now =
        some (ainsert friendID { friend with lastSeen := now } friends,
          FriendFIFOPath configDir (encodeHex friend.publicKey) "text_out",
          "[" ++ timestamp ++ "] <" ++ friend.name ++ "> " ++ message) ∧
      handleFriendMessage configDir friends friendID message
          MessageType.action timestamp now =
        some (ainsert friendID { friend with lastSeen := now } friends,
          FriendFIFOPath configDir (encodeHex friend.publicKey) "text_out",
          "[" ++ timestamp ++ "] * " ++ friend.name ++ " " ++ message)) := by
  constructor
  · intro hnone
    exact ⟨by simp [handleFriendMessage, hnone],
      by simp [handleFriendMessage, hnone]⟩
  · intro friend hsome
    exact ⟨by simp [handleFriendMessage, hsome],
      by simp [handleFriendMessage, hsome]⟩

/-- C7 witness: the spec scenario — normal "hi" from Bob at 10:00:00
yields `[10:00:00] <Bob> hi`, action "waves" yields
`[10:00:00] * Bob waves`, and an unknown handle is dropped. -/
theorem c7_friendMessage_format_witness :
    alookup bobFriends 5 = some bobFriend ∧
    handleFriendMessage "/cfg" bobFriends 5 "hi" MessageType.normal
        "10:00:00" 7 =
      some (ainsert 5 { bobFriend with lastSeen := 7 } bobFriends,
        FriendFIFOPath "/cfg" (encodeHex bobFriend.publicKey) "text_out",
        "[10:00:00] <Bob> hi") ∧
    handleFriendMessage "/cfg" bobFriends 5 "waves" MessageType.action
        "10:00:00" 7 =
      some (ainsert 5 { bobFriend with lastSeen := 7 } bobFriends,
        FriendFIFOPath "/cfg" (encodeHex bobFriend.publicKey) "text_out",
        "[10:00:00] * Bob waves") ∧
    alookup bobFriends 6 = none ∧
    handleFriendMessage "/cfg" bobFriends 6 "hi" MessageType.normal
        "10:00:00" 7 = none := by
  have hk1 := ((c7_friendMessage_format "/cfg" bobFriends 5 "hi"
    "10:00:00" 7).2 bobFriend rfl).1
  have hk2 := ((c7_friendMessage_format "/cfg" bobFriends 5 "waves"
    "10:00:00" 7).2 bobFriend rfl).2
  have hn := ((c7_friendMessage_format "/cfg" bobFriends 6 "hi"
    "10:00:00" 7).1 rfl).1
  refine ⟨rfl, ?_, ?_, rfl, hn⟩
  · rw [hk1]; decide
  · rw [hk2]; decide

/-! ## FIFO descriptor table (src/client/fifo.go) -/

/-- Permission constants from fifo.go:63-67. -/
def FIFOPermInput : Nat := 0o600

def FIFOPermOutput : Nat := 0o600

def DirPerm : Nat := 0o700

/-- `FIFO` (fifo.go:35-45): descriptor metadata for one named pipe; the
`handle` field models the `File` pointer, `none` standing for nil. -/
structure FIFOEntry where
  mode : Nat
  isInput : Bool
  isOutput : Bool
  handle : Option Nat
  lastUsed : Int
  deriving Repr, DecidableEq

/-- The FIFO manager's shared state: the descriptor table keyed by path
plus the process's open pipe handles. -/
structure FIFOState where
  fifos : List (String × FIFOEntry)
  openHandles : List Nat
  deriving Repr, DecidableEq

/-- `filepath.Base` for slash-separated paths: trailing slashes dropped,
then the last component; "" gives ".", all-slashes gives "/". -/
def filepathBase (p : String) : String :=
  if p = "" then "."
  else
    let l := (p.data.reverse.dropWhile (fun c => c == '/')).reverse
    if l = [] then "/" else String.mk (l.reverse.takeWhile (fun c => c != '/')).reverse

/-- `isGlobalFIFO` (fifo.go:630-633): the four global pipe basenames. -/
def isGlobalFIFO (path : String) : Bool :=
  let n := filepathBase path
  n == "request_in" || n == "request_out" || n == "name" ||
    n == "status_message"

/-- One minute in Go `time.Duration` nanoseconds. -/
def minuteNs : Int := 60 * 1000000000

/-- The `periodicCleanup` ticker period (fifo.go:598): five minutes. -/
def sweepInterval : Int := 5 * minuteNs

/-- The idle cutoff distance in `cleanupUnusedFIFOs` (fifo.go:614):
thirty minutes. -/
def idleThreshold : Int := 30 * minuteNs

/-- The retention predicate of the sweep: a descriptor survives unless it
is idle past the cutoff and non-global (negation of the deletion test at
fifo.go:620). -/
def keepFIFO (cutoff : Int) (p : String × FIFOEntry) : Bool :=
  !(decide (p.2.lastUsed < cutoff) && !isGlobalFIFO p.1)

/-- `cleanupUnusedFIFOs` (fifo.go:613-627): drop every descriptor whose
last-used time is before `now - 30min` unless its path is global. -/
def cleanupUnusedFIFOs (st : FIFOState) (now : Int) : FIFOState :=
  let cutoff := now - idleThreshold
  { st with fifos := st.fifos.filter (keepFIFO cutoff) }

theorem alookup_cleanup_global (l : List (String × FIFOEntry))
    (path : String) (cutoff : Int) (hg : isGlobalFIFO path = true) :
    alookup (l.filter (keepFIFO cutoff)) path = alookup l path := by
  induction l with
  | nil => rfl
  | cons p rest ih =>
      rcases p with ⟨pk, pe⟩
      by_cases hpk : pk = path
      · subst hpk
        have hkeep : keepFIFO cutoff (pk, pe) = true := by
          simp [keepFIFO, hg]
        rw [List.filter_cons, hkeep, if_pos rfl, alookup, if_pos rfl,
          alookup, if_pos rfl]
      · by_cases hkeep : keepFIFO cutoff (pk, pe) = true
        · rw [List.filter_cons, hkeep, if_pos rfl, alookup, if_neg hpk,
            alookup, if_neg hpk]
          exact ih
        · rw [Bool.not_eq_true] at hkeep
          rw [List.filter_cons, hkeep, if_neg Bool.false_ne_true, ih,
            alookup, if_neg hpk]

theorem alookup_eq_none_of_not_mem_keys {κ α : Type} [DecidableEq κ]
    (l : List (κ × α)) (k : κ) :
    k ∉ l.map Prod.fst → alookup l k = none := by
  induction l with
  | nil => intro _; rfl
  | cons p rest ih =>
      intro h
      rw [List.map_cons] at h
      have h1 : ¬ p.1 = k :=
        fun he => h (List.mem_cons.2 (Or.inl he.symm))
      rw [alookup, if_neg h1]
      exact ih (fun hm => h (List.mem_cons.2 (Or.inr hm)))

theorem alookup_cleanup_stale (l : List (String × FIFOEntry))
    (path : String) (cutoff : Int) (e : FIFOEntry) :
    (l.map Prod.fst).Nodup → alookup l path = some e →
    isGlobalFIFO path = false → e.lastUsed < cutoff →
    alookup (l.filter (keepFIFO cutoff)) path = none := by
  induction l with
  | nil => intro _ hlook _ _; cases hlook
  | cons p rest ih =>
      intro hnodup hlook hng hold
      rcases p with ⟨pk, pe⟩
      rw [List.map_cons, List.nodup_cons] at hnodup
      by_cases hpk : pk = path
      · subst hpk
        rw [alookup, if_pos rfl] at hlook
        cases Option.some.inj hlook
        have hdrop : keepFIFO cutoff (pk, e) = false := by
          simp [keepFIFO, hold, hng]
        rw [List.filter_cons, hdrop, if_neg Bool.false_ne_true]
        refine alookup_eq_none_of_not_mem_keys _ pk ?_
        intro hm
        exact hnodup.1 (List.Sublist.mem hm
          (List.Sublist.map Prod.fst (List.filter_sublist rest)))
      · rw [alookup, if_neg hpk] at hlook
        have htail := ih hnodup.2 hlook hng hold
        by_cases hkeep : keepFIFO cutoff (pk, pe) = true
        · rw [List.filter_cons, hkeep, if_pos rfl, alookup, if_neg hpk]
          exact htail
        · rw [Bool.not_eq_true] at hkeep
          rw [List.filter_cons, hkeep, if_neg Bool.false_ne_true]
          exact htail

/-- C4: the idle sweep never drops a global descriptor, and any
non-global descriptor idle past the 30-minute threshold is gone from the
table after the sweep. -/
theorem c4_idle_cleanup (st : FIFOState) (now : Int) (path : String)
    (e : FIFOEntry) :
    (isGlobalFIFO path = true →
      alookup (cleanupUnusedFIFOs st now).fifos path =
        alookup st.fifos path) ∧
    ((st.fifos.map Prod.fst).Nodup →
      alookup st.fifos path = some e →
      isGlobalFIFO path = false →
      e.lastUsed < now - idleThreshold →
      alookup (cleanupUnusedFIFOs st now).fifos path = none) := by
  constructor
  · intro hg
    exact alookup_cleanup_global st.fifos path (now - idleThreshold) hg
  · intro hnodup hlook hng hold
    exact alookup_cleanup_stale st.fifos path (now - idleThreshold) e
      hnodup hlook hng hold

/-- A stale per-friend descriptor for the cleanup witness. -/
def staleTextIn : FIFOEntry :=
  { mode := 0o600, isInput := true, isOutput := false, handle := none,
    lastUsed := 0 }

/-- An equally stale global descriptor for the cleanup witness. -/
def staleRequestIn : FIFOEntry :=
  { mode := 0o600, isInput := true, isOutput := false, handle := none,
    lastUsed := 0 }

/-- A two-entry descriptor table: one global pipe and one friend pipe,
both idle since time 0. -/
def sweepState : FIFOState :=
  { fifos := [("/cfg/client/request_in", staleRequestIn),
      ("/cfg/abcd/text_in", staleTextIn)],
    openHandles := [] }

/-- C4 witness: after a sweep at one hour, the idle global request pipe
is still registered while the equally idle friend text pipe is gone. -/
theorem c4_idle_cleanup_witness :
    isGlobalFIFO "/cfg/client/request_in" = true ∧
    isGlobalFIFO "/cfg/abcd/text_in" = false ∧
    (sweepState.fifos.map Prod.fst).Nodup ∧
    alookup sweepState.fifos "/cfg/abcd/text_in" = some staleTextIn ∧
    staleTextIn.lastUsed < 3600 * 1000000000 - idleThreshold ∧
    alookup (cleanupUnusedFIFOs sweepState (3600 * 1000000000)).fifos
      "/cfg/client/request_in" =
      alookup sweepState.fifos "/cfg/client/request_in" ∧
    alookup (cleanupUnusedFIFOs sweepState (3600 * 1000000000)).fifos
      "/cfg/abcd/text_in" = none :=
  ⟨by decide, by decide, by decide, by decide, by decide,
    (c4_idle_cleanup sweepState (3600 * 1000000000)
      "/cfg/client/request_in" staleRequestIn).1 (by decide),
    (c4_idle_cleanup sweepState (3600 * 1000000000)
      "/cfg/abcd/text_in" staleTextIn).2 (by decide) (by decide)
      (by decide) (by decide)⟩

/-- Syscall outcomes consumed by `createFIFO`/`CreateFriendFIFOs`
(`os.MkdirAll`, `os.Remove`, `syscall.Mkfifo`, `os.Chmod`); `removeOk`
covers both success and the tolerated not-exist error. -/
structure SysOracle where
  mkdirOk : Bool
  removeOk : Bool
  mkfifoOk : Bool
  chmodOk : Bool
  deriving Repr, DecidableEq

/-- `File.Close` on an optional handle: the handle leaves the set of
open handles. -/
def closeHandle (hs : List Nat) : Option Nat → List Nat
  | some h => hs.filter (fun x => !decide (x = h))
  | none => hs

/-- The cleanup block at the top of `createFIFO` (fifo.go:181-191):
close the registered descriptor's open handle, if any, and delete its
table entry. -/
def releaseExisting (st : FIFOState) (path : String) : FIFOState :=
  match alookup st.fifos path with
  | some existing =>
      { fifos := aerase st.fifos path,
        openHandles := closeHandle st.openHandles existing.handle }
  | none => st

/-- The descriptor registered at the end of `createFIFO`
(fifo.go:215-224): fresh permission bits, no open handle, current
timestamp. -/
def newFIFOEntry (isInput isOutput : Bool) (now : Int) : FIFOEntry :=
  { mode := if isInput then FIFOPermInput
      else if isOutput then FIFOPermOutput else 0o600,
    isInput := isInput, isOutput := isOutput, handle := none,
    lastUsed := now }

/-- `createFIFO` (fifo.go:180-231): release any registered descriptor for
the path, remove the filesystem object, create a fresh pipe, set its
permissions, then register a new descriptor stamped `now`. -/
def createFIFO (st : FIFOState) (path : String) (isInput isOutput : Bool)
    (now : Int) (sys : SysOracle) : FIFOState × Option String :=
  let st1 := releaseExisting st path
  if !sys.removeOk then (st1, some "failed to remove existing FIFO")
  else if !sys.mkfifoOk then (st1, some "failed to create FIFO")
  else if !sys.chmodOk then (st1, some "failed to set FIFO permissions")
  else
    ({ fifos := ainsert path (newFIFOEntry isInput isOutput now) st1.fifos,
        openHandles := st1.openHandles }, none)

/-- `writeFIFO` (fifo.go:352-379): result is (state, line written,
error).  The path must be registered with an output descriptor; the
non-blocking open and the write may each fail; the last-used stamp is
refreshed only after a successful write. -/
def writeFIFO (st : FIFOState) (path data : String) (now : Int)
    (openOk writeOk : Bool) : FIFOState × Option String × Option String :=
  match alookup st.fifos path with
  | none => (st, none, some ("FIFO not found: " ++ path))
  | some fifo =>
      if !fifo.isOutput then
        (st, none, some ("FIFO is not an output FIFO: " ++ path))
      else if !openOk then
        (st, none, some "failed to open FIFO for writing")
      else if !writeOk then
        (st, none, some "failed to write to FIFO")
      else
        ({ st with
            fifos := ainsert path { fifo with lastUsed := now } st.fifos },
          some (data ++ "\n"), none)

theorem releaseExisting_of_lookup (st : FIFOState) (path : String)
    (e : FIFOEntry) (h : alookup st.fifos path = some e) :
    releaseExisting st path =
      { fifos := aerase st.fifos path,
        openHandles := closeHandle st.openHandles e.handle } := by
  unfold releaseExisting
  rw [h]

theorem createFIFO_ok (st : FIFOState) (path : String)
    (isInput isOutput : Bool) (now : Int) (sys : SysOracle)
    (hrm : sys.removeOk = true) (hmk : sys.mkfifoOk = true)
    (hch : sys.chmodOk = true) :
    createFIFO st path isInput isOutput now sys =
      ({ fifos := ainsert path (newFIFOEntry isInput isOutput now)
                    (releaseExisting st path).fifos,
         openHandles := (releaseExisting st path).openHandles }, none) := by
  simp [createFIFO, hrm, hmk, hch]

/-- C5: with the syscalls succeeding, creating a pipe at an
already-registered path first releases the old descriptor's handle and
then registers exactly one fresh descriptor stamped with the current
time; doing it twice in a row leaves exactly one live descriptor for the
path and the previously open handle closed. -/
theorem c5_createFIFO_recreate (st : FIFOState) (path : String)
    (isInput isOutput : Bool) (t1 t2 : Int) (sys : SysOracle)
    (hrm : sys.removeOk = true) (hmk : sys.mkfifoOk = true)
    (hch : sys.chmodOk = true) :
    (createFIFO st path isInput isOutput t1 sys).2 = none ∧
    (createFIFO (createFIFO st path isInput isOutput t1 sys).1 path
      isInput isOutput t2 sys).2 = none ∧
    acount (createFIFO (createFIFO st path isInput isOutput t1 sys).1 path
      isInput isOutput t2 sys).1.fifos path = 1 ∧
    alookup (createFIFO (createFIFO st path isInput isOutput t1 sys).1 path
      isInput isOutput t2 sys).1.fifos path =
      some (newFIFOEntry isInput isOutput t2) ∧
    (∀ f h, alookup st.fifos path = some f → f.handle = some h →
      h ∉ (createFIFO st path isInput isOutput t1 sys).1.openHandles ∧
      h ∉ (createFIFO (createFIFO st path isInput isOutput t1 sys).1 path
        isInput isOutput t2 sys).1.openHandles) := by
  rw [createFIFO_ok st path isInput isOutput t1 sys hrm hmk hch]
  have hlook1 : alookup (ainsert path (newFIFOEntry isInput isOutput t1)
      (releaseExisting st path).fifos) path =
      some (newFIFOEntry isInput isOutput t1) :=
    alookup_ainsert_self path _ _
  have hrel2 := releaseExisting_of_lookup
    ({ fifos := ainsert path (newFIFOEntry isInput isOutput t1)
                  (releaseExisting st path).fifos,
       openHandles := (releaseExisting st path).openHandles } : FIFOState)
    path (newFIFOEntry isInput isOutput t1) hlook1
  rw [createFIFO_ok _ path isInput isOutput t2 sys hrm hmk hch, hrel2]
  refine ⟨rfl, rfl, acount_ainsert path _ _, alookup_ainsert_self path _ _,
    ?_⟩
  intro f h hf hh
  have hout := releaseExisting_of_lookup st path f hf
  rw [hh] at hout
  constructor
  · simp only [hout, closeHandle]
    intro hmem
    rcases List.mem_filter.1 hmem with ⟨_, hpred⟩
    simp at hpred
  · simp only [hout, closeHandle, newFIFOEntry]
    intro hmem
    rcases List.mem_filter.1 hmem with ⟨_, hpred⟩
    simp at hpred

/-- The descriptor already registered at path "/cfg/ab/text_out" with an
open handle, used by the recreate witness. -/
def oldOutEntry : FIFOEntry :=
  { mode := 0o600, isInput := false, isOutput := true, handle := some 7,
    lastUsed := 3 }

/-- A one-descriptor state whose handle 7 is open. -/
def recreateState : FIFOState :=
  { fifos := [("/cfg/ab/text_out", oldOutEntry)], openHandles := [7] }

/-- An all-success syscall oracle. -/
def sysAllOk : SysOracle :=
  { mkdirOk := true, removeOk := true, mkfifoOk := true, chmodOk := true }

/-- C5 witness: recreating "/cfg/ab/text_out" twice over a state holding
an open handle leaves one live descriptor stamped with the second time
and handle 7 closed. -/
theorem c5_createFIFO_recreate_witness :
    alookup recreateState.fifos "/cfg/ab/text_out" = some oldOutEntry ∧
    oldOutEntry.handle = some 7 ∧
    ((createFIFO recreateState "/cfg/ab/text_out" false true 10
        sysAllOk).2 = none ∧
      (createFIFO (createFIFO recreateState "/cfg/ab/text_out" false true 10
        sysAllOk).1 "/cfg/ab/text_out" false true 20 sysAllOk).2 = none ∧
      acount (createFIFO (createFIFO recreateState "/cfg/ab/text_out" false
        true 10 sysAllOk).1 "/cfg/ab/text_out" false true 20
        sysAllOk).1.fifos "/cfg/ab/text_out" = 1 ∧
      alookup (createFIFO (createFIFO recreateState "/cfg/ab/text_out" false
        true 10 sysAllOk).1 "/cfg/ab/text_out" false true 20
        sysAllOk).1.fifos "/cfg/ab/text_out" =
        some (newFIFOEntry false true 20) ∧
      (7 ∉ (createFIFO recreateState "/cfg/ab/text_out" false true 10
          sysAllOk).1.openHandles ∧
        7 ∉ (createFIFO (createFIFO recreateState "/cfg/ab/text_out" false
          true 10 sysAllOk).1 "/cfg/ab/text_out" false true 20
          sysAllOk).1.openHandles)) := by
  have h := c5_createFIFO_recreate recreateState "/cfg/ab/text_out" false
    true 10 20 sysAllOk rfl rfl rfl
  exact ⟨rfl, rfl, h.1, h.2.1, h.2.2.1, h.2.2.2.1,
    h.2.2.2.2 oldOutEntry 7 rfl rfl⟩

/-- C10: a `writeFIFO` call succeeds only when the path is registered
with an output-direction descriptor and both the non-blocking open and
the write succeed; every failure returns an error, writes nothing, and
leaves the table (hence the last-used stamp) unchanged; on success the
line plus newline is written and the descriptor is restamped `now`. -/
theorem c10_writeFIFO_gate (st : FIFOState) (path data : String)
    (now : Int) (openOk writeOk : Bool) :
    (alookup st.fifos path = none →
      writeFIFO st path data now openOk writeOk =
        (st, none, some ("FIFO not found: " ++ path))) ∧
    (∀ fifo, alookup st.fifos path = some fifo → fifo.isOutput = false →
      writeFIFO st path data now openOk writeOk =
        (st, none, some ("FIFO is not an output FIFO: " ++ path))) ∧
    (∀ fifo, alookup st.fifos path = some fifo → fifo.isOutput = true →
      openOk = false →
      writeFIFO st path data now openOk writeOk =
        (st, none, some "failed to open FIFO for writing")) ∧
    (∀ fifo, alookup st.fifos path = some fifo → fifo.isOutput = true →
      openOk = true → writeOk = false →
      writeFIFO st path data now openOk writeOk =
        (st, none, some "failed to write to FIFO")) ∧
    (∀ fifo, alookup st.fifos path = some fifo → fifo.isOutput = true →
      openOk = true → writeOk = true →
      writeFIFO st path data now openOk writeOk =
        ({ st with fifos := ainsert path { fifo with lastUsed := now }
                              st.fifos }, some (data ++ "\n"), none) ∧
      alookup (writeFIFO st path data now openOk writeOk).1.fifos path =
        some { fifo with lastUsed := now }) := by
  refine ⟨?_, ?_, ?_, ?_, ?_⟩
  · intro hn; simp [writeFIFO, hn]
  · intro fifo hs hno; simp [writeFIFO, hs, hno]
  · intro fifo hs hyes hop; simp [writeFIFO, hs, hyes, hop]
  · intro fifo hs hyes hop hwr; simp [writeFIFO, hs, hyes, hop, hwr]
  · intro fifo hs hyes hop hwr
    have heq : writeFIFO st path data now openOk writeOk =
        ({ st with fifos := ainsert path { fifo with lastUsed := now }
                              st.fifos }, some (data ++ "\n"), none) := by
      simp [writeFIFO, hs, hyes, hop, hwr]
    refine ⟨heq, ?_⟩
    rw [heq]
    exact alookup_ainsert_self path { fifo with lastUsed := now } st.fifos

/-- An input-direction descriptor for the write-gate witness. -/
def inEntry : FIFOEntry :=
  { mode := 0o600, isInput := true, isOutput := false, handle := none,
    lastUsed := 3 }

/-- A table with one output pipe and one input pipe. -/
def writeState : FIFOState :=
  { fifos := [("/cfg/ab/text_out", oldOutEntry), ("/cfg/ab/text_in", inEntry)],
    openHandles := [] }

/-- C10 witness: an unregistered path and an input pipe are refused with
the state untouched; the output pipe accepts the write and is restamped. -/
theorem c10_writeFIFO_gate_witness :
    alookup writeState.fifos "/cfg/ab/status" = none ∧
    alookup writeState.fifos "/cfg/ab/text_in" = some inEntry ∧
    alookup writeState.fifos "/cfg/ab/text_out" = some oldOutEntry ∧
    writeFIFO writeState "/cfg/ab/status" "x" 9 true true =
      (writeState, none, some ("FIFO not found: " ++ "/cfg/ab/status")) ∧
    writeFIFO writeState "/cfg/ab/text_in" "x" 9 true true =
      (writeState, none,
        some ("FIFO is not an output FIFO: " ++ "/cfg/ab/text_in")) ∧
    writeFIFO writeState "/cfg/ab/text_out" "x" 9 false true =
      (writeState, none, some "failed to open FIFO for writing") ∧
    (writeFIFO writeState "/cfg/ab/text_out" "x" 9 true true =
      ({ writeState with fifos := ainsert "/cfg/ab/text_out"
                                      { oldOutEntry with lastUsed := 9 }
                                      writeState.fifos },
        some ("x" ++ "\n"), none) ∧
      alookup (writeFIFO writeState "/cfg/ab/text_out" "x" 9 true
        true).1.fifos "/cfg/ab/text_out" =
        some { oldOutEntry with lastUsed := 9 }) := by
  have h := c10_writeFIFO_gate writeState "/cfg/ab/text_out" "x" 9
  have hmiss := (c10_writeFIFO_gate writeState "/cfg/ab/status" "x" 9
    true true).1 rfl
  have hin := (c10_writeFIFO_gate writeState "/cfg/ab/text_in" "x" 9
    true true).2.1 inEntry rfl rfl
  have hopen := (c10_writeFIFO_gate writeState "/cfg/ab/text_out" "x" 9
    false true).2.2.1 oldOutEntry rfl rfl rfl
  have hsucc := (c10_writeFIFO_gate writeState "/cfg/ab/text_out" "x" 9
    true true).2.2.2.2 oldOutEntry rfl rfl rfl rfl
  exact ⟨rfl, rfl, rfl, hmiss, hin, hopen, hsucc⟩

/-! ## Request-pipe input (fifo.go handleRequestIn, part_001
AcceptFriendRequest).  Lines are modelled as UTF-8 byte lists because the
Go code indexes and slices the string by byte. -/

/-- ASCII whitespace bytes removed by `strings.TrimSpace`. -/
def isSpaceByte (b : Nat) : Bool :=
  b == 9 || b == 10 || b == 11 || b == 12 || b == 13 || b == 32

/-- `strings.TrimSpace` on the ASCII range. -/
def trimBytes (l : List Nat) : List Nat :=
  ((l.dropWhile isSpaceByte).reverse.dropWhile isSpaceByte).reverse

/-- The digit table of `encoding/hex` (`fromHexChar`). -/
def hexVal (b : Nat) : Option Nat :=
  if 48 ≤ b ∧ b ≤ 57 then some (b - 48)
  else if 97 ≤ b ∧ b ≤ 102 then some (b - 87)
  else if 65 ≤ b ∧ b ≤ 70 then some (b - 55)
  else none

/-- `hex.DecodeString`: two digits per byte, failing on odd length or any
non-digit. -/
def decodeHexBytes : List Nat → Option (List Nat)
  | [] => some []
  | [_] => none
  | a :: b :: rest =>
      match hexVal a, hexVal b, decodeHexBytes rest with
      | some hi, some lo, some r => some ((16 * hi + lo) :: r)
      | _, _, _ => none

/-- `copy(publicKey[:], publicKeyBytes)` into a zeroed `[32]byte`. -/
def copy32 (bs : List Nat) : List Nat :=
  bs.take 32 ++ List.replicate (32 - bs.length) 0

/-- The validation half of `handleRequestIn` (fifo.go:384-408): `some k`
means `AcceptFriendRequest` is then invoked with key `k`; `none` means
the line was logged and discarded. -/
def handleRequestInKey (line : List Nat) : Option (List Nat) :=
  let toxID := trimBytes line
  let publicKeyHex? : Option (List Nat) :=
    if toxID.length = 64 then some toxID
    else if toxID.length = 76 then some (toxID.take 64)
    else none
  match publicKeyHex? with
  | none => none
  | some kh =>
      match decodeHexBytes kh with
      | none => none
      | some bytes => some (copy32 bytes)

theorem decodeHexBytes_isSome : ∀ l : List Nat,
    (decodeHexBytes l).isSome = true ↔
      (l.length % 2 = 0 ∧ l.all (fun b => (hexVal b).isSome) = true)
  | [] => by simp [decodeHexBytes]
  | [a] => by simp [decodeHexBytes]
  | a :: b :: rest => by
      have ih := decodeHexBytes_isSome rest
      have hlen : (a :: b :: rest).length % 2 = rest.length % 2 := by
        simp only [List.length_cons]
        omega
      rw [decodeHexBytes]
      cases hva : hexVal a with
      | none => simp [hva, List.all_cons]
      | some hi =>
          cases hvb : hexVal b with
          | none => simp [hvb, List.all_cons]
          | some lo =>
              cases hdr : decodeHexBytes rest with
              | none =>
                  rw [hdr] at ih
                  simp only [Option.isSome_none, Bool.false_eq_true,
                    false_iff] at ih
                  simp only [Option.isSome_none, Bool.false_eq_true,
                    false_iff, hlen, List.all_cons, hva, hvb]
                  intro hcon
                  exact ih ⟨hcon.1, by
                    have := hcon.2
                    simp only [Option.isSome_some, Bool.true_and] at this
                    exact this⟩
              | some r =>
                  rw [hdr] at ih
                  simp only [Option.isSome_some, true_iff] at ih
                  obtain ⟨ih1, ih2⟩ := ih
                  simp only [Option.isSome_some, true_iff]
                  refine ⟨by simp only [List.length_cons]; omega, ?_⟩
                  simp [List.all_cons, hva, hvb, ih2]

/-! ## The client pipeline state -/

/-- The client-side state the request pipeline touches: the friend map of
part_001, the FIFO descriptor table, and the set of created friend
directories. -/
structure ClientState where
  friends : List (Nat × Friend)
  fifoSt : FIFOState
  dirs : List String
  deriving Repr, DecidableEq

/-- The five per-friend pipes of `CreateFriendFIFOs` (fifo.go:150-160):
name, isInput, isOutput. -/
def friendFIFOSpecs : List (String × Bool × Bool) :=
  [("text_in", true, false), ("text_out", false, true),
    ("file_in", true, false), ("file_out", false, true),
    ("status", false, true)]

/-- The creation loop of `CreateFriendFIFOs`: stop at the first error. -/
def createFIFOSeq (st : FIFOState) (specs : List (String × Bool × Bool))
    (now : Int) (sys : SysOracle) : FIFOState × Option String :=
  match specs with
  | [] => (st, none)
  | (p, i, o) :: rest =>
      match createFIFO st p i o now sys with
      | (st', none) => createFIFOSeq st' rest now sys
      | (st', some e) => (st', some e)

/-- `CreateFriendFIFOs` (fifo.go:144-177): make the friend directory,
then create the five pipes in order. -/
def CreateFriendFIFOs (st : FIFOState) (dirs : List String)
    (configDir friendID : String) (now : Int) (sys : SysOracle) :
    FIFOState × List String × Option String :=
  if !sys.mkdirOk then
    (st, dirs, some "failed to create friend directory")
  else
    let dir := FriendDir configDir friendID
    let dirs' := if dir ∈ dirs then dirs else dir :: dirs
    let specs := friendFIFOSpecs.map
      (fun s => (FriendFIFOPath configDir friendID s.1, s.2.1, s.2.2))
    match createFIFOSeq st specs now sys with
    | (st', e) => (st', dirs', e)

/-- `AcceptFriendRequest` (part_001:518-553): call the engine's
add-by-key operation; on engine failure nothing is registered; on
success the Friend is stored and its directory and pipes are created. -/
def AcceptFriendRequest (cs : ClientState) (configDir : String)
    (publicKey : List Nat) (engine : Except String Nat) (now : Int)
    (sys : SysOracle) : ClientState × Option Nat :=
  match engine with
  | Except.error _ => (cs, none)
  | Except.ok friendID =>
      let friend : Friend :=
        { id := friendID, publicKey := publicKey, name := "Unknown",
          status := 0, online := false, lastSeen := now }
      let friends' := ainsert friendID friend cs.friends
      let friendIDStr := encodeHex publicKey
      let res := CreateFriendFIFOs cs.fifoSt cs.dirs configDir friendIDStr
        now sys
      ({ friends := friends', fifoSt := res.1, dirs := res.2.1 },
        some friendID)

/-- `handleRequestIn` end to end: the middle component is the key passed
to the engine's add-by-key call (`none` = rejected, no engine call), the
last is the new friend handle when the engine call succeeded. -/
def handleRequestIn (cs : ClientState) (configDir : String)
    (line : List Nat) (engine : Except String Nat) (now : Int)
    (sys : SysOracle) : ClientState × Option (List Nat) × Option Nat :=
  match handleRequestInKey line with
  | none => (cs, none, none)
  | some key =>
      let res := AcceptFriendRequest cs configDir key engine now sys
      (res.1, some key, res.2)

theorem handleRequestIn_key (cs : ClientState) (configDir : String)
    (line : List Nat) (engine : Except String Nat) (now : Int)
    (sys : SysOracle) :
    (handleRequestIn cs configDir line engine now sys).2.1 =
      handleRequestInKey line := by
  cases hkey : handleRequestInKey line <;> simp [handleRequestIn, hkey]

theorem handleRequestInKey_eq (line : List Nat) :
    handleRequestInKey line =
      if (trimBytes line).length = 64 ∨ (trimBytes line).length = 76 then
        (decodeHexBytes ((trimBytes line).take 64)).map copy32
      else none := by
  unfold handleRequestInKey
  by_cases h64 : (trimBytes line).length = 64
  · have ht : (trimBytes line).take 64 = trimBytes line :=
      List.take_of_length_le (by omega)
    simp only [h64, if_true, if_pos (Or.inl h64), ht]
    cases hd : decodeHexBytes (trimBytes line) <;> simp [hd]
  · by_cases h76 : (trimBytes line).length = 76
    · simp only [h64, if_false, h76, if_true, if_pos (Or.inr h76)]
      cases hd : decodeHexBytes ((trimBytes line).take 64) <;> simp [hd]
    · have : ¬ ((trimBytes line).length = 64 ∨
          (trimBytes line).length = 76) := by
        intro hc; rcases hc with hc | hc
        · exact h64 hc
        · exact h76 hc
      simp [h64, h76, this]

theorem createFriendFIFOs_dir_mem (st : FIFOState) (dirs : List String)
    (configDir friendID : String) (now : Int) (sys : SysOracle)
    (h : sys.mkdirOk = true) :
    FriendDir configDir friendID ∈
      (CreateFriendFIFOs st dirs configDir friendID now sys).2.1 := by
  simp only [CreateFriendFIFOs, h, Bool.not_true, Bool.false_eq_true,
    if_false]
  by_cases hc : FriendDir configDir friendID ∈ dirs <;>
    simp [hc]

/-- A 76-byte line: 64 hex zeros followed by twelve '!' bytes. -/
def c1Line : List Nat := List.replicate 64 48 ++ List.replicate 12 33

/-- C1 counterexample: a 76-character line whose trailing 12 characters
are not hex digits is still accepted — `handleRequestIn` validates only
the length and the leading 64 characters, so "accepted exactly when the
line consists of 64 or 76 hex characters" fails. -/
theorem c1_counterexample :
    c1Line.length = 76 ∧
    (handleRequestInKey c1Line).isSome = true ∧
    c1Line.all (fun b => (hexVal b).isSome) = false := by
  decide

/-- C1 (amended): after trimming, a request line is accepted exactly when
it is 64 bytes long and all hex, or 76 bytes long with its leading 64
bytes hex (the trailing 12 bytes are never validated); only the leading
64 characters form the key; any other length is discarded with no engine
call and no state change; on acceptance the engine add-by-key operation
receives the decoded key and, when it succeeds, the new Friend is
registered and its directory created. -/
theorem c1_request_validation (cs : ClientState) (configDir : String)
    (line : List Nat) (engine : Except String Nat) (now : Int)
    (sys : SysOracle) (hmkdir : sys.mkdirOk = true) :
    (((handleRequestIn cs configDir line engine now sys).2.1).isSome =
        true ↔
      (((trimBytes line).length = 64 ∨ (trimBytes line).length = 76) ∧
        ((trimBytes line).take 64).all
          (fun b => (hexVal b).isSome) = true)) ∧
    (∀ k, (handleRequestIn cs configDir line engine now sys).2.1 =
        some k →
      ∃ bs, decodeHexBytes ((trimBytes line).take 64) = some bs ∧
        k = copy32 bs) ∧
    ((trimBytes line).length ≠ 64 → (trimBytes line).length ≠ 76 →
      handleRequestIn cs configDir line engine now sys =
        (cs, none, none)) ∧
    (∀ k fid,
      (handleRequestIn cs configDir line engine now sys).2.1 = some k →
      engine = Except.ok fid →
      alookup (handleRequestIn cs configDir line engine now
          sys).1.friends fid =
        some { id := fid, publicKey := k, name := "Unknown", status := 0,
               online := false, lastSeen := now } ∧
      FriendDir configDir (encodeHex k) ∈
        (handleRequestIn cs configDir line engine now sys).1.dirs) := by
  have hkey := handleRequestIn_key cs configDir line engine now sys
  have hspec := handleRequestInKey_eq line
  refine ⟨?_, ?_, ?_, ?_⟩
  · rw [hkey, hspec]
    by_cases hlen : (trimBytes line).length = 64 ∨
        (trimBytes line).length = 76
    · rw [if_pos hlen, Option.isSome_map', decodeHexBytes_isSome]
      have hlen2 : (min 64 (trimBytes line).length) % 2 = 0 := by
        rcases hlen with h | h <;> rw [h] <;> decide
      simp [List.length_take, hlen, hlen2]
    · rw [if_neg hlen]
      simp [hlen]
  · intro k hk
    rw [hkey, hspec] at hk
    by_cases hlen : (trimBytes line).length = 64 ∨
        (trimBytes line).length = 76
    · rw [if_pos hlen] at hk
      rcases Option.map_eq_some'.1 hk with ⟨bs, hbs, hcopy⟩
      exact ⟨bs, hbs, hcopy.symm⟩
    · rw [if_neg hlen] at hk
      exact Option.noConfusion hk
  · intro h64 h76
    have hnone : handleRequestInKey line = none := by
      rw [hspec, if_neg]
      intro hc
      rcases hc with hc | hc
      · exact h64 hc
      · exact h76 hc
    simp [handleRequestIn, hnone]
  · intro k fid hk heng
    have hkl : handleRequestInKey line = some k := by rw [← hkey]; exact hk
    have hstate : (handleRequestIn cs configDir line engine now sys).1 =
        (AcceptFriendRequest cs configDir k engine now sys).1 := by
      simp [handleRequestIn, hkl]
    rw [hstate, heng]
    simp only [AcceptFriendRequest]
    exact ⟨alookup_ainsert_self fid _ cs.friends,
      createFriendFIFOs_dir_mem cs.fifoSt cs.dirs configDir
        (encodeHex k) now sys hmkdir⟩

/-- A bare 64-hex-zero request line. -/
def c1GoodLine : List Nat := List.replicate 64 48

/-- A client with no friends, no descriptors and no directories. -/
def emptyClient : ClientState :=
  { friends := [], fifoSt := { fifos := [], openHandles := [] }, dirs := [] }

/-- C1 witness: the amended theorem at a concrete bare-key line over the
empty client — the line is accepted, the engine key is 32 zero bytes,
and with the engine returning handle 3 the Friend is registered and its
directory created. -/
theorem c1_request_validation_witness :
    sysAllOk.mkdirOk = true ∧
    (handleRequestIn emptyClient "/cfg" c1GoodLine (Except.ok 3) 5
      sysAllOk).2.1 = some (List.replicate 32 0) ∧
    (alookup (handleRequestIn emptyClient "/cfg" c1GoodLine (Except.ok 3)
        5 sysAllOk).1.friends 3 =
      some { id := 3, publicKey := List.replicate 32 0, name := "Unknown",
             status := 0, online := false, lastSeen := 5 } ∧
      FriendDir "/cfg" (encodeHex (List.replicate 32 0)) ∈
        (handleRequestIn emptyClient "/cfg" c1GoodLine (Except.ok 3) 5
          sysAllOk).1.dirs) :=
  ⟨rfl, by decide,
    (c1_request_validation emptyClient "/cfg" c1GoodLine (Except.ok 3) 5
      sysAllOk rfl).2.2.2 (List.replicate 32 0) 3 (by decide) rfl⟩

/-! ## SHA-256 (crypto/sha256.Sum256, used for transfer identifiers) -/

def rotr32 (n x : Nat) : Nat :=
  ((x >>> n) ||| (x <<< (32 - n))) % 4294967296

def sha256K : List Nat :=
  [1116352408, 1899447441, 3049323471, 3921009573, 961987163,
   1508970993, 2453635748, 2870763221, 3624381080, 310598401,
   607225278, 1426881987, 1925078388, 2162078206, 2614888103,
   3248222580, 3835390401, 4022224774, 264347078, 604807628,
   770255983, 1249150122, 1555081692, 1996064986, 2554220882,
   2821834349, 2952996808, 3210313671, 3336571891, 3584528711,
   113926993, 338241895, 666307205, 773529912, 1294757372,
   1396182291, 1695183700, 1986661051, 2177026350, 2456956037,
   2730485921, 2820302411, 3259730800, 3345764771, 3516065817,
   3600352804, 4094571909, 275423344, 430227734, 506948616,
   659060556, 883997877, 958139571, 1322822218, 1537002063,
   1747873779, 1955562222, 2024104815, 2227730452, 2361852424,
   2428436474, 2756734187, 3204031479, 3329325298]

def sha256H0 : List Nat :=
  [1779033703, 3144134277, 1013904242, 2773480762,
   1359893119, 2600822924, 528734635, 1541459225]

def bigEndian8 (n : Nat) : List Nat :=
  (List.range 8).map (fun i => (n >>> (8 * (7 - i))) % 256)

def sha256Pad (msg : List Nat) : List Nat :=
  let len := msg.length
  let zeros := (120 - ((len + 1) % 64)) % 64
  msg ++ [0x80] ++ List.replicate zeros 0 ++ bigEndian8 (8 * len)

def chunks64 (l : List Nat) : List (List Nat) :=
  if h : l = [] then []
  else
    have : (l.drop 64).length < l.length := by
      have hl : 0 < l.length := List.length_pos.2 h
      rw [List.length_drop]
      omega
    l.take 64 :: chunks64 (l.drop 64)
termination_by l.length

def word32At (chunk : List Nat) (i : Nat) : Nat :=
  chunk.getD (4 * i) 0 * 16777216 + chunk.getD (4 * i + 1) 0 * 65536 +
    chunk.getD (4 * i + 2) 0 * 256 + chunk.getD (4 * i + 3) 0

def sha256Schedule (chunk : List Nat) : List Nat :=
  let w16 := (List.range 16).map (word32At chunk)
  (List.range 48).foldl
    (fun w _ =>
      let n := w.length
      let w15 := w.getD (n - 15) 0
      let w2 := w.getD (n - 2) 0
      let s0 := (rotr32 7 w15) ^^^ (rotr32 18 w15) ^^^ (w15 >>> 3)
      let s1 := (rotr32 17 w2) ^^^ (rotr32 19 w2) ^^^ (w2 >>> 10)
      w ++ [(w.getD (n - 16) 0 + s0 + w.getD (n - 7) 0 + s1) % 4294967296])
    w16

def sha256Compress (hs : List Nat) (chunk : List Nat) : List Nat :=
  let ws := sha256Schedule chunk
  let final := (List.range 64).foldl
    (fun st i =>
      match st with
      | (a, b, c, d, e, f, g, hh) =>
        let s1 := (rotr32 6 e) ^^^ (rotr32 11 e) ^^^ (rotr32 25 e)
        let ch := (e &&& f) ^^^ ((e ^^^ 4294967295) &&& g)
        let temp1 := (hh + s1 + ch + sha256K.getD i 0 + ws.getD i 0) %
          4294967296
        let s0 := (rotr32 2 a) ^^^ (rotr32 13 a) ^^^ (rotr32 22 a)
        let maj := (a &&& b) ^^^ (a &&& c) ^^^ (b &&& c)
        let temp2 := (s0 + maj) % 4294967296
        ((temp1 + temp2) % 4294967296, a, b, c,
          (d + temp1) % 4294967296, e, f, g))
    (hs.getD 0 0, hs.getD 1 0, hs.getD 2 0, hs.getD 3 0,
      hs.getD 4 0, hs.getD 5 0, hs.getD 6 0, hs.getD 7 0)
  match final with
  | (a, b, c, d, e, f, g, hh) =>
    List.zipWith (fun x y => (x + y) % 4294967296) hs
      [a, b, c, d, e, f, g, hh]

/-- `sha256.Sum256` over a byte list (checked against the FIPS "abc" and
empty-message test vectors). -/
def sha256Bytes (msg : List Nat) : List Nat :=
  let final := (chunks64 (sha256Pad msg)).foldl sha256Compress sha256H0
  final.foldr
    (fun wd acc => (wd >>> 24) % 256 :: (wd >>> 16) % 256 ::
      (wd >>> 8) % 256 :: wd % 256 :: acc) []

/-! ## Outbound file transfers (fifo.go handleFriendFileIn) -/

/-- UTF-8 encoding of one code point. -/
def utf8Encode (c : Char) : List Nat :=
  let n := c.toNat
  if n < 0x80 then [n]
  else if n < 0x800 then
    [0xC0 ||| (n >>> 6), 0x80 ||| (n &&& 0x3F)]
  else if n < 0x10000 then
    [0xE0 ||| (n >>> 12), 0x80 ||| ((n >>> 6) &&& 0x3F),
      0x80 ||| (n &&& 0x3F)]
  else
    [0xF0 ||| (n >>> 18), 0x80 ||| ((n >>> 12) &&& 0x3F),
      0x80 ||| ((n >>> 6) &&& 0x3F), 0x80 ||| (n &&& 0x3F)]

/-- `unicode.IsSpace` as used by `strings.TrimSpace`. -/
def goIsSpace (c : Char) : Bool :=
  c.toNat == 9 || c.toNat == 10 || c.toNat == 11 || c.toNat == 12 ||
    c.toNat == 13 || c.toNat == 32 || c.toNat == 0x85 ||
    c.toNat == 0xA0 || c.toNat == 0x1680 ||
    (decide (0x2000 ≤ c.toNat) && decide (c.toNat ≤ 0x200A)) ||
    c.toNat == 0x2028 || c.toNat == 0x2029 || c.toNat == 0x202F ||
    c.toNat == 0x205F || c.toNat == 0x3000

/-- `strings.TrimSpace`. -/
def goTrimSpace (s : String) : String :=
  String.mk (((s.data.dropWhile goIsSpace).reverse.dropWhile
    goIsSpace).reverse)

/-- Go `[]byte(s)`: the UTF-8 bytes of a string. -/
def strBytes (s : String) : List Nat :=
  s.data.foldr (fun c acc => utf8Encode c ++ acc) []

/-- `hex.DecodeString` applied to a Go string. -/
def decodeHexString (s : String) : Option (List Nat) :=
  decodeHexBytes (strBytes s)

/-- The linear scan over the friends map matching on `PublicKey`
(fifo.go:464-472 and 519-527). -/
def findByKey (friends : List (Nat × Friend)) (key : List Nat) :
    Option Nat :=
  match friends with
  | [] => none
  | (_, fr) :: rest =>
      if fr.publicKey = key then some fr.id else findByKey rest key

/-- What `os.Stat` reports about a path: the file kind and size. -/
inductive FileKind where
  | regular
  | directory
  | fifoPipe
  | other
  deriving Repr, DecidableEq

structure FileInfo where
  kind : FileKind
  size : Nat
  deriving Repr, DecidableEq

/-- The arguments of the `tox.FileSend` engine call (fifo.go:560). -/
structure FileSendCall where
  friendNumber : Nat
  kind : Nat
  fileSize : Nat
  fileID : List Nat
  filename : String
  deriving Repr, DecidableEq

/-- `handleFriendFileIn` (fifo.go:493-567): `some call` is the engine
invocation, `none` means the line was logged and discarded.  The
filesystem is an oracle `fs`. -/
def handleFriendFileIn (friends : List (Nat × Friend))
    (friendID filePath : String) (fs : String → Option FileInfo)
    (maxFileSize : Int) : Option FileSendCall :=
  let filePath := goTrimSpace filePath
  if goLen filePath = 0 then none
  else
    match decodeHexString friendID with
    | none => none
    | some keyBytes =>
        if keyBytes.length ≠ 32 then none
        else
          match findByKey friends (copy32 keyBytes) with
          | none => none
          | some friendNum =>
              match fs filePath with
              | none => none
              | some info =>
                  if info.kind = FileKind.directory then none
                  else
                    if maxFileSize > 0 ∧ (info.size : Int) > maxFileSize
                    then none
                    else
                      some
                        { friendNumber := friendNum, kind := 0,
                          fileSize := info.size,
                          fileID := sha256Bytes (strBytes filePath),
                          filename := filepathBase filePath }

/-- A friend whose raw public key is 32 zero bytes, under handle 4. -/
def zeroKeyFriend : Friend :=
  { id := 4, publicKey := List.replicate 32 0, name := "Zed",
    status := 0, online := false, lastSeen := 0 }

/-- A friend map holding only `zeroKeyFriend`. -/
def zeroFriends : List (Nat × Friend) := [(4, zeroKeyFriend)]

/-- The 64-hex-zero directory name of `zeroKeyFriend`. -/
def zeroKeyHex : String := String.mk (List.replicate 64 '0')

/-- A filesystem with a single named pipe at "/tmp/pipe". -/
def fsPipeOnly : String → Option FileInfo := fun p =>
  if p = "/tmp/pipe" then some { kind := FileKind.fifoPipe, size := 5 }
  else none

/-- C8 counterexample: the code only checks `IsDir()`, not regular-file
type, so a path whose stat reports a non-regular non-directory kind (a
named pipe here) passes every validation and the transfer is initiated —
"validated for regular-file type" fails. -/
theorem c8_counterexample :
    fsPipeOnly "/tmp/pipe" = some { kind := FileKind.fifoPipe, size := 5 } ∧
    FileKind.fifoPipe ≠ FileKind.regular ∧
    (handleFriendFileIn zeroFriends zeroKeyHex "/tmp/pipe" fsPipeOnly
      100).isSome = true := by
  refine ⟨rfl, by decide, ?_⟩
  decide

/-- C8 (amended): the outbound-file line is validated for nonemptiness,
friend resolution, existence, non-directory kind (the code checks
`IsDir()`, not regular-file type) and the configured size limit; any
failure discards the line with no engine call, and only when all checks
pass is `FileSend` invoked, with a transfer identifier derived
deterministically from the (trimmed) path as its SHA-256 digest. -/
theorem c8_file_validation (friends : List (Nat × Friend))
    (friendID filePath : String) (fs : String → Option FileInfo)
    (maxFileSize : Int) :
    ((goTrimSpace filePath) = "" →
      handleFriendFileIn friends friendID filePath fs maxFileSize =
        none) ∧
    (decodeHexString friendID = none →
      handleFriendFileIn friends friendID filePath fs maxFileSize =
        none) ∧
    (∀ kb, decodeHexString friendID = some kb → kb.length ≠ 32 →
      handleFriendFileIn friends friendID filePath fs maxFileSize =
        none) ∧
    (∀ kb, decodeHexString friendID = some kb → kb.length = 32 →
      findByKey friends (copy32 kb) = none →
      handleFriendFileIn friends friendID filePath fs maxFileSize =
        none) ∧
    (fs (goTrimSpace filePath) = none →
      handleFriendFileIn friends friendID filePath fs maxFileSize =
        none) ∧
    (∀ info, fs (goTrimSpace filePath) = some info →
      info.kind = FileKind.directory →
      handleFriendFileIn friends friendID filePath fs maxFileSize =
        none) ∧
    (∀ info, fs (goTrimSpace filePath) = some info → maxFileSize > 0 →
      (info.size : Int) > maxFileSize →
      handleFriendFileIn friends friendID filePath fs maxFileSize =
        none) ∧
    (∀ kb friendNum info, (goTrimSpace filePath) ≠ "" →
      decodeHexString friendID = some kb → kb.length = 32 →
      findByKey friends (copy32 kb) = some friendNum →
      fs (goTrimSpace filePath) = some info → info.kind ≠ FileKind.directory →
      ¬ (maxFileSize > 0 ∧ (info.size : Int) > maxFileSize) →
      handleFriendFileIn friends friendID filePath fs maxFileSize =
        some { friendNumber := friendNum, kind := 0,
               fileSize := info.size,
               fileID := sha256Bytes (strBytes (goTrimSpace filePath)),
               filename := filepathBase (goTrimSpace filePath) }) := by
  refine ⟨?_, ?_, ?_, ?_, ?_, ?_, ?_, ?_⟩
  · intro h
    have h0 : goLen (goTrimSpace filePath) = 0 := (goLen_eq_zero _).2 h
    simp [handleFriendFileIn, h0]
  · intro hdec
    by_cases h0 : goLen (goTrimSpace filePath) = 0
    · simp [handleFriendFileIn, h0]
    · simp [handleFriendFileIn, h0, hdec]
  · intro kb hdec hlen
    by_cases h0 : goLen (goTrimSpace filePath) = 0
    · simp [handleFriendFileIn, h0]
    · simp [handleFriendFileIn, h0, hdec, hlen]
  · intro kb hdec hlen hfind
    by_cases h0 : goLen (goTrimSpace filePath) = 0
    · simp [handleFriendFileIn, h0]
    · simp [handleFriendFileIn, h0, hdec, hlen, hfind]
  · intro hfs
    by_cases h0 : goLen (goTrimSpace filePath) = 0
    · simp [handleFriendFileIn, h0]
    · cases hdec : decodeHexString friendID with
      | none => simp [handleFriendFileIn, h0, hdec]
      | some kb =>
          by_cases hlen : kb.length = 32
          · cases hfind : findByKey friends (copy32 kb) with
            | none => simp [handleFriendFileIn, h0, hdec, hlen, hfind]
            | some fn =>
                simp [handleFriendFileIn, h0, hdec, hlen, hfind, hfs]
          · simp [handleFriendFileIn, h0, hdec, hlen]
  · intro info hfs hdir
    by_cases h0 : goLen (goTrimSpace filePath) = 0
    · simp [handleFriendFileIn, h0]
    · cases hdec : decodeHexString friendID with
      | none => simp [handleFriendFileIn, h0, hdec]
      | some kb =>
          by_cases hlen : kb.length = 32
          · cases hfind : findByKey friends (copy32 kb) with
            | none => simp [handleFriendFileIn, h0, hdec, hlen, hfind]
            | some fn =>
                simp [handleFriendFileIn, h0, hdec, hlen, hfind, hfs,
                  hdir]
          · simp [handleFriendFileIn, h0, hdec, hlen]
  · intro info hfs hmax hsize
    by_cases h0 : goLen (goTrimSpace filePath) = 0
    · simp [handleFriendFileIn, h0]
    · cases hdec : decodeHexString friendID with
      | none => simp [handleFriendFileIn, h0, hdec]
      | some kb =>
          by_cases hlen : kb.length = 32
          · cases hfind : findByKey friends (copy32 kb) with
            | none => simp [handleFriendFileIn, h0, hdec, hlen, hfind]
            | some fn =>
                by_cases hdir : info.kind = FileKind.directory
                · simp [handleFriendFileIn, h0, hdec, hlen, hfind, hfs,
                    hdir]
                · simp [handleFriendFileIn, h0, hdec, hlen, hfind, hfs,
                    hdir, hmax, hsize]
          · simp [handleFriendFileIn, h0, hdec, hlen]
  · intro kb friendNum info hne hdec hlen hfind hfs hdir hsz
    have h0 : ¬ goLen (goTrimSpace filePath) = 0 :=
      fun hz => hne ((goLen_eq_zero _).1 hz)
    simp [handleFriendFileIn, h0, hdec, hlen, hfind, hfs, hdir, hsz]

/-- A filesystem with a single 50-byte regular file at "/tmp/doc.txt". -/
def fsRegularDoc : String → Option FileInfo := fun p =>
  if p = "/tmp/doc.txt" then some { kind := FileKind.regular, size := 50 }
  else none

/-- C8 witness: a valid path initiates the transfer with the SHA-256
transfer identifier of the path; a missing path and an oversize limit
are both discarded with no engine call. -/
theorem c8_file_validation_witness :
    decodeHexString zeroKeyHex = some (List.replicate 32 0) ∧
    findByKey zeroFriends (copy32 (List.replicate 32 0)) = some 4 ∧
    fsRegularDoc "/tmp/doc.txt" =
      some { kind := FileKind.regular, size := 50 } ∧
    handleFriendFileIn zeroFriends zeroKeyHex "/tmp/doc.txt" fsRegularDoc
        100 =
      some { friendNumber := 4, kind := 0, fileSize := 50,
             fileID := sha256Bytes (strBytes (goTrimSpace "/tmp/doc.txt")),
             filename := filepathBase (goTrimSpace "/tmp/doc.txt") } ∧
    handleFriendFileIn zeroFriends zeroKeyHex "/tmp/missing" fsRegularDoc
        100 = none ∧
    handleFriendFileIn zeroFriends zeroKeyHex "/tmp/doc.txt" fsRegularDoc
        10 = none := by
  refine ⟨by decide, by decide, rfl, ?_, ?_, ?_⟩
  · exact (c8_file_validation zeroFriends zeroKeyHex "/tmp/doc.txt"
      fsRegularDoc 100).2.2.2.2.2.2.2 (List.replicate 32 0) 4
      { kind := FileKind.regular, size := 50 } (by decide) (by decide)
      (by decide) (by decide) (by decide) (by decide) (by decide)
  · exact (c8_file_validation zeroFriends zeroKeyHex "/tmp/missing"
      fsRegularDoc 100).2.2.2.2.1 (by decide)
  · exact (c8_file_validation zeroFriends zeroKeyHex "/tmp/doc.txt"
      fsRegularDoc 10).2.2.2.2.2.2.1
      { kind := FileKind.regular, size := 50 } (by decide) (by decide)
      (by decide)

/-! ## Outbound text (fifo.go handleFriendTextIn) and the input
dispatch (C9) -/

/-- `strings.TrimPrefix(message, "/me ")` under the prefix guard. -/
def trimMeMarker (s : String) : String := s.drop 4

/-- The record of one reached `SendMessage` call: its arguments, whether
the engine call `SendFriendMessage` was made, and the returned value. -/
structure SendAttempt where
  friendNumber : Nat
  message : String
  messageType : MessageType
  engineCalled : Bool
  result : Except String Unit
  deriving Repr

/-- `handleFriendTextIn` (fifo.go:439-490): trim, resolve the friend by
hex key, classify `/me ` lines as action messages with the marker
stripped, then call `SendMessage`; `none` means the line was discarded
before `SendMessage` was reached. -/
def handleFriendTextIn (friends : List (Nat × Friend))
    (friendID message : String) (engineResult : Except String Unit) :
    Option SendAttempt :=
  let message := goTrimSpace message
  if goLen message = 0 then none
  else
    match decodeHexString friendID with
    | none => none
    | some keyBytes =>
        if keyBytes.length ≠ 32 then none
        else
          match findByKey friends (copy32 keyBytes) with
          | none => none
          | some friendNum =>
              let mt := if String.startsWith message "/me "
                then MessageType.action else MessageType.normal
              let msg2 := if String.startsWith message "/me "
                then trimMeMarker message else message
              let r := SendMessage friendNum msg2 mt engineResult
              some { friendNumber := friendNum, message := msg2,
                     messageType := mt, engineCalled := r.1,
                     result := r.2 }

/-- `handleNameChange` (fifo.go:417-427): `some n` is the trimmed name
forwarded to the engine; the empty name is rejected. -/
def handleNameChange (name : String) : Option String :=
  let name := goTrimSpace name
  if goLen name = 0 then none else some name

/-- `handleStatusMessageChange` (fifo.go:430-436): always forwarded. -/
def handleStatusMessageChange (message : String) : Option String :=
  some (goTrimSpace message)

/-- One line arriving on one of the five monitored input pipes. -/
inductive InputLine where
  | request (line : List Nat)
  | nameLine (s : String)
  | statusMessageLine (s : String)
  | textLine (friendID : String) (s : String)
  | fileLine (friendID : String) (s : String)
  deriving Repr, DecidableEq

/-- The dispatch the polling loops perform
(`monitorGlobalFIFOs`/`monitorFriendFIFOs`, fifo.go:249-308): the
resulting client state and whether any engine call was made.  Every
handler is a total function: control always returns to the polling
loop. -/
def dispatchLine (cs : ClientState) (configDir : String) (l : InputLine)
    (engineAdd : Except String Nat) (engineSend : Except String Unit)
    (fs : String → Option FileInfo) (maxFileSize : Int) (now : Int)
    (sys : SysOracle) : ClientState × Bool :=
  match l with
  | InputLine.request line =>
      let r := handleRequestIn cs configDir line engineAdd now sys
      (r.1, (r.2.1).isSome)
  | InputLine.nameLine s => (cs, (handleNameChange s).isSome)
  | InputLine.statusMessageLine s =>
      (cs, (handleStatusMessageChange s).isSome)
  | InputLine.textLine fid s =>
      (cs, match handleFriendTextIn cs.friends fid s engineSend with
        | none => false
        | some a => a.engineCalled)
  | InputLine.fileLine fid s =>
      (cs, (handleFriendFileIn cs.friends fid s fs maxFileSize).isSome)

/-- The text the engine would transmit for a text_in line. -/
def transmittedText (s : String) : String :=
  let m := goTrimSpace s
  if String.startsWith m "/me " then trimMeMarker m else m

/-- A validation failure of one input line, case by case from the
source handlers (the status-message pipe has no failing validation). -/
def lineFails (cs : ClientState) (l : InputLine)
    (fs : String → Option FileInfo) (maxFileSize : Int) : Prop :=
  match l with
  | InputLine.request line =>
      ¬ (((trimBytes line).length = 64 ∨ (trimBytes line).length = 76) ∧
        ((trimBytes line).take 64).all (fun b => (hexVal b).isSome) = true)
  | InputLine.nameLine s => goTrimSpace s = ""
  | InputLine.statusMessageLine _ => False
  | InputLine.textLine fid s =>
      goTrimSpace s = "" ∨ decodeHexString fid = none ∨
      (∃ kb, decodeHexString fid = some kb ∧
        (kb.length ≠ 32 ∨ findByKey cs.friends (copy32 kb) = none)) ∨
      goLen (transmittedText s) > 1372
  | InputLine.fileLine fid s =>
      goTrimSpace s = "" ∨ decodeHexString fid = none ∨
      (∃ kb, decodeHexString fid = some kb ∧
        (kb.length ≠ 32 ∨ findByKey cs.friends (copy32 kb) = none)) ∨
      fs (goTrimSpace s) = none ∨
      (∃ info, fs (goTrimSpace s) = some info ∧
        (info.kind = FileKind.directory ∨
          (maxFileSize > 0 ∧ (info.size : Int) > maxFileSize)))

/-- C9: every handler is a total function of its line (dispatch always
returns to the polling loop), and on any validation failure no engine
call is made and the client state — friend registry, FIFO descriptor
table and directories — is left unchanged. -/
theorem c9_validation_isolated (cs : ClientState) (configDir : String)
    (l : InputLine) (engineAdd : Except String Nat)
    (engineSend : Except String Unit) (fs : String → Option FileInfo)
    (maxFileSize : Int) (now : Int) (sys : SysOracle)
    (h : lineFails cs l fs maxFileSize) :
    dispatchLine cs configDir l engineAdd engineSend fs maxFileSize now
      sys = (cs, false) := by
  cases l with
  | request line =>
      have hnone : handleRequestInKey line = none := by
        rw [handleRequestInKey_eq]
        by_cases hlen : (trimBytes line).length = 64 ∨
            (trimBytes line).length = 76
        · rw [if_pos hlen]
          have hx : ¬ ((trimBytes line).take 64).all
              (fun b => (hexVal b).isSome) = true :=
            fun hx => h ⟨hlen, hx⟩
          have hd : decodeHexBytes ((trimBytes line).take 64) = none := by
            cases hd : decodeHexBytes ((trimBytes line).take 64) with
            | none => rfl
            | some r =>
                exact absurd ((decodeHexBytes_isSome _).1
                  (by rw [hd]; rfl)).2 hx
          rw [hd]
          rfl
        · rw [if_neg hlen]
      simp [dispatchLine, handleRequestIn, hnone]
  | nameLine s =>
      have h0 : goLen (goTrimSpace s) = 0 := (goLen_eq_zero _).2 h
      simp [dispatchLine, handleNameChange, h0]
  | statusMessageLine s => exact h.elim
  | textLine fid s =>
      suffices hX : (match handleFriendTextIn cs.friends fid s engineSend
          with
        | none => false
        | some a => a.engineCalled) = false by
        simpa [dispatchLine] using hX
      by_cases h0 : goLen (goTrimSpace s) = 0
      · simp [handleFriendTextIn, h0]
      · cases hdec : decodeHexString fid with
        | none => simp [handleFriendTextIn, h0, hdec]
        | some kb =>
            by_cases hlen : kb.length = 32
            · cases hfind : findByKey cs.friends (copy32 kb) with
              | none => simp [handleFriendTextIn, h0, hdec, hlen, hfind]
              | some fn =>
                  have hover : goLen (transmittedText s) > 1372 := by
                    rcases h with h1 | h2 | ⟨kb2, hkb2, h3⟩ | h4
                    · exact absurd ((goLen_eq_zero _).2 h1) h0
                    · rw [hdec] at h2; exact Option.noConfusion h2
                    · rw [hdec] at hkb2
                      cases Option.some.inj hkb2
                      rcases h3 with h3 | h3
                      · exact absurd hlen h3
                      · rw [hfind] at h3; exact Option.noConfusion h3
                    · exact h4
                  simp only [transmittedText] at hover
                  have hne : ¬ goLen (if String.startsWith
                      (goTrimSpace s) "/me " then
                        trimMeMarker (goTrimSpace s)
                      else goTrimSpace s) = 0 := by omega
                  simp [handleFriendTextIn, h0, hdec, hlen, hfind,
                    SendMessage, hne, hover]
            · simp [handleFriendTextIn, h0, hdec, hlen]
  | fileLine fid s =>
      suffices hX : handleFriendFileIn cs.friends fid s fs maxFileSize =
          none by
        simp [dispatchLine, hX]
      by_cases h0 : goLen (goTrimSpace s) = 0
      · simp [handleFriendFileIn, h0]
      · cases hdec : decodeHexString fid with
        | none => simp [handleFriendFileIn, h0, hdec]
        | some kb =>
            by_cases hlen : kb.length = 32
            · cases hfind : findByKey cs.friends (copy32 kb) with
              | none => simp [handleFriendFileIn, h0, hdec, hlen, hfind]
              | some fn =>
                  cases hfs : fs (goTrimSpace s) with
                  | none =>
                      simp [handleFriendFileIn, h0, hdec, hlen, hfind,
                        hfs]
                  | some info =>
                      have hrest : info.kind = FileKind.directory ∨
                          (maxFileSize > 0 ∧
                            (info.size : Int) > maxFileSize) := by
                        rcases h with h1 | h2 | ⟨kb2, hkb2, h3⟩ | h4 |
                            ⟨info2, hinfo2, h5⟩
                        · exact absurd ((goLen_eq_zero _).2 h1) h0
                        · rw [hdec] at h2; exact Option.noConfusion h2
                        · rw [hdec] at hkb2
                          cases Option.some.inj hkb2
                          rcases h3 with h3 | h3
                          · exact absurd hlen h3
                          · rw [hfind] at h3
                            exact Option.noConfusion h3
                        · rw [hfs] at h4; exact Option.noConfusion h4
                        · rw [hfs] at hinfo2
                          cases Option.some.inj hinfo2
                          exact h5
                      rcases hrest with hdir | hsz
                      · simp [handleFriendFileIn, h0, hdec, hlen, hfind,
                          hfs, hdir]
                      · by_cases hdir : info.kind = FileKind.directory
                        · simp [handleFriendFileIn, h0, hdec, hlen,
                            hfind, hfs, hdir]
                        · simp [handleFriendFileIn, h0, hdec, hlen,
                            hfind, hfs, hdir, hsz]
            · simp [handleFriendFileIn, h0, hdec, hlen]

/-- C9 witness: a one-byte request line, a whitespace-only name line, an
unknown-friend text line and a missing-file file line each fail
validation and leave the empty client untouched with no engine call. -/
theorem c9_validation_isolated_witness :
    lineFails emptyClient (InputLine.request [49]) (fun _ => none) 100 ∧
    dispatchLine emptyClient "/cfg" (InputLine.request [49])
      (Except.ok 3) (Except.ok ()) (fun _ => none) 100 5 sysAllOk =
      (emptyClient, false) ∧
    lineFails emptyClient (InputLine.nameLine "   ") (fun _ => none)
      100 ∧
    dispatchLine emptyClient "/cfg" (InputLine.nameLine "   ")
      (Except.ok 3) (Except.ok ()) (fun _ => none) 100 5 sysAllOk =
      (emptyClient, false) ∧
    lineFails emptyClient (InputLine.textLine zeroKeyHex "hello")
      (fun _ => none) 100 ∧
    dispatchLine emptyClient "/cfg" (InputLine.textLine zeroKeyHex
      "hello") (Except.ok 3) (Except.ok ()) (fun _ => none) 100 5
      sysAllOk = (emptyClient, false) ∧
    lineFails emptyClient (InputLine.fileLine zeroKeyHex "/tmp/x")
      (fun _ => none) 100 ∧
    dispatchLine emptyClient "/cfg" (InputLine.fileLine zeroKeyHex
      "/tmp/x") (Except.ok 3) (Except.ok ()) (fun _ => none) 100 5
      sysAllOk = (emptyClient, false) := by
  have hreq : lineFails emptyClient (InputLine.request [49])
      (fun _ => none) 100 := by
    simp only [lineFails]
    decide
  have hname : lineFails emptyClient (InputLine.nameLine "   ")
      (fun _ => none) 100 := by
    simp only [lineFails]
    decide
  have htext : lineFails emptyClient (InputLine.textLine zeroKeyHex
      "hello") (fun _ => none) 100 := by
    simp only [lineFails]
    refine Or.inr (Or.inr (Or.inl ?_))
    exact ⟨List.replicate 32 0, by decide, Or.inr (by decide)⟩
  have hfile : lineFails emptyClient (InputLine.fileLine zeroKeyHex
      "/tmp/x") (fun _ => none) 100 := by
    simp only [lineFails]
    refine Or.inr (Or.inr (Or.inl ?_))
    exact ⟨List.replicate 32 0, by decide, Or.inr (by decide)⟩
  exact ⟨hreq,
    c9_validation_isolated emptyClient "/cfg" (InputLine.request [49])
      (Except.ok 3) (Except.ok ()) (fun _ => none) 100 5 sysAllOk hreq,
    hname,
    c9_validation_isolated emptyClient "/cfg" (InputLine.nameLine "   ")
      (Except.ok 3) (Except.ok ()) (fun _ => none) 100 5 sysAllOk hname,
    htext,
    c9_validation_isolated emptyClient "/cfg"
      (InputLine.textLine zeroKeyHex "hello") (Except.ok 3)
      (Except.ok ()) (fun _ => none) 100 5 sysAllOk htext,
    hfile,
    c9_validation_isolated emptyClient "/cfg"
      (InputLine.fileLine zeroKeyHex "/tmp/x") (Except.ok 3)
      (Except.ok ()) (fun _ => none) 100 5 sysAllOk hfile⟩

end Ratox
